import Mathlib

/-!
Shallow embedding of `src/index.ts` of `scully-gh-pages-action`, a GitHub
action that installs dependencies, builds a Scully site and force-pushes the
generated output to a deploy branch.

The whole program is the single async function `run`.  We model it as a pure
function from an environment (action inputs, GitHub context, filesystem
probe results, parsed lock files, and oracles giving the outcome of each
external command) to the list of observable effects the run performs
(commands executed, file copies, the `success` output, `core.setFailed`
messages).  JavaScript strings are modelled as Lean `String`s; the string
operations the source uses (`trim`, `indexOf(p) === 0`, `slice(3)`, template
concatenation) are modelled by structurally recursive functions over the
underlying character lists so that every definition evaluates by kernel
reduction.  `console.log` calls are not modelled: they are diagnostics with
no behavioural content.  `core.getInput` trims surrounding whitespace of the
raw input value (the default behaviour of `@actions/core`), which we model
explicitly with `jsTrim`.
-/

namespace ScullyAction

/-- Whitespace test used by `trim`. -/
def isWS (c : Char) : Bool := c.isWhitespace

/-- Drop leading and trailing whitespace characters from a character list. -/
def trimList (l : List Char) : List Char :=
  ((l.dropWhile isWS).reverse.dropWhile isWS).reverse

/-- Model of JavaScript `String.prototype.trim` (also applied by
`core.getInput` to every input value). -/
def jsTrim (s : String) : String := ⟨trimList s.data⟩

/-- Model of the JS test `s.indexOf(pat) === 0`, i.e. `pat` occurs at
position 0 of `s`: `pat` is a prefix of `s`. -/
def jsStartsWith (pat s : String) : Bool := pat.data.isPrefixOf s.data

/-- Model of JS `s.slice(3)`: drop the first three characters. -/
def jsSlice3 (s : String) : String := ⟨s.data.drop 3⟩

/-- Does `pat` occur as a contiguous substring of `l`?  Models the regex
test `/@scullyio\/scully/.test(key)` (an unanchored literal pattern). -/
def hasSubstr (pat : List Char) : List Char → Bool
  | [] => pat.isPrefixOf ([] : List Char)
  | c :: rest => pat.isPrefixOf (c :: rest) || hasSubstr pat rest

/-- Split a character list at every occurrence of the separator character
(the semver grammar only ever separates on the single characters
`'.'`, `'-'`, `'+'`). -/
def splitOnChar (sep : Char) : List Char → List (List Char)
  | [] => [[]]
  | c :: rest =>
    match splitOnChar sep rest with
    | [] => if c = sep then [[], [c]] else [[c]]
    | h :: t => if c = sep then [] :: h :: t else (c :: h) :: t

/-! ## Semantic versions (model of the `semver` package as used by the
source: `semver.lte(version, '0.0.85')`) -/

/-- A prerelease identifier: numeric identifiers compare numerically and
below every alphanumeric identifier; alphanumeric identifiers compare in
code-unit lexicographic order. -/
inductive PreId where
  | num (n : Nat)
  | str (s : List Char)
  deriving DecidableEq, Repr

/-- A parsed semantic version `major.minor.patch` with an optional
prerelease identifier list (build metadata is validated but discarded,
as it is ignored for precedence). -/
structure SemVer where
  major : Nat
  minor : Nat
  patch : Nat
  prerelease : List PreId
  deriving DecidableEq, Repr

/-- Digits of a numeric identifier to its value. -/
def digitsToNat (l : List Char) : Nat :=
  l.foldl (fun acc c => acc * 10 + (c.toNat - '0'.toNat)) 0

/-- Parse a strict numeric field (`major`, `minor`, `patch`):
non-empty, all digits, no leading zero unless the field is exactly `0`. -/
def parseNumStrict (l : List Char) : Option Nat :=
  if l = [] then none
  else if !(l.all Char.isDigit) then none
  else if l.length > 1 && l.headD ' ' = '0' then none
  else some (digitsToNat l)

/-- A character allowed inside prerelease/build identifiers. -/
def isIdentChar (c : Char) : Bool := c.isAlphanum || c = '-'

/-- Parse one prerelease identifier: numeric identifiers (no leading
zeros) become `PreId.num`, other alphanumeric-and-hyphen identifiers
become `PreId.str`; anything else is invalid. -/
def parsePreId (l : List Char) : Option PreId :=
  if l = [] then none
  else if l.all Char.isDigit then
    if l.length > 1 && l.headD ' ' = '0' then none else some (.num (digitsToNat l))
  else if l.all isIdentChar then some (.str l)
  else none

/-- Is a build-metadata suffix valid (dot-separated non-empty
alphanumeric-or-hyphen identifiers)? -/
def validBuild (l : List Char) : Bool :=
  (splitOnChar '.' l).all fun i => !i.isEmpty && i.all isIdentChar

/-- Parse the `major.minor.patch` core. -/
def parseCore (l : List Char) : Option (Nat × Nat × Nat) :=
  match splitOnChar '.' l with
  | [ma, mi, pa] =>
    match parseNumStrict ma, parseNumStrict mi, parseNumStrict pa with
    | some M, some m, some p => some (M, m, p)
    | _, _, _ => none
  | _ => none

/-- Parse a semantic version string the way `new SemVer(v)` does in the
`semver` package: trim, allow one leading `v`, parse
`major.minor.patch`, an optional `-prerelease` and an optional
`+build`. -/
def semverParse (input : String) : Option SemVer :=
  let l0 := trimList input.data
  let l := match l0 with
    | 'v' :: rest => rest
    | _ => l0
  match splitOnChar '+' l with
  | [mainPart] => semverParseMain mainPart
  | [mainPart, build] =>
    if build = [] || !validBuild build then none else semverParseMain mainPart
  | _ => none
where
  /-- Parse the part before the build metadata. -/
  semverParseMain (l : List Char) : Option SemVer :=
    match splitOnChar '-' l with
    | [] => none
    | core :: rest =>
      match parseCore core with
      | none => none
      | some (M, m, p) =>
        if rest = [] then some ⟨M, m, p, []⟩
        else
          match (splitOnChar '.' (List.intercalate ['-'] rest)).mapM parsePreId with
          | some ids => some ⟨M, m, p, ids⟩
          | none => none

/-- Code-unit lexicographic comparison of identifier text (JS `<`/`>` on
strings). -/
def lexCmp : List Char → List Char → Ordering
  | [], [] => .eq
  | [], _ :: _ => .lt
  | _ :: _, [] => .gt
  | a :: as, b :: bs =>
    match compare a.toNat b.toNat with
    | .eq => lexCmp as bs
    | o => o

/-- Compare two prerelease identifiers per semver precedence. -/
def preIdCmp : PreId → PreId → Ordering
  | .num a, .num b => compare a b
  | .num _, .str _ => .lt
  | .str _, .num _ => .gt
  | .str a, .str b => lexCmp a b

/-- Compare two (non-empty vs non-empty) prerelease identifier lists:
identifier by identifier, a shorter list that is a prefix of the other
being smaller. -/
def preListCmp : List PreId → List PreId → Ordering
  | [], [] => .eq
  | [], _ :: _ => .lt
  | _ :: _, [] => .gt
  | a :: as, b :: bs =>
    match preIdCmp a b with
    | .eq => preListCmp as bs
    | o => o

/-- Full semver precedence: compare the numeric core; on ties a version
without prerelease outranks one with a prerelease, and two prereleases
compare with `preListCmp`. -/
def semverCompare (a b : SemVer) : Ordering :=
  match compare a.major b.major with
  | .eq =>
    match compare a.minor b.minor with
    | .eq =>
      match compare a.patch b.patch with
      | .eq =>
        match a.prerelease, b.prerelease with
        | [], [] => .eq
        | [], _ :: _ => .gt
        | _ :: _, [] => .lt
        | pa, pb => preListCmp pa pb
      | o => o
    | o => o
  | o => o

/-- A thrown JavaScript value: either an `Error` (carrying `.message`) or
any non-`Error` value (whose identity the handler never inspects). -/
inductive Thrown where
  | jsError (msg : String)
  | nonError
  deriving DecidableEq, Repr

/-- Message of the `TypeError` raised by `semver` on an unparsable
version. -/
def invalidVersionMsg (s : String) : String := "Invalid Version: " ++ s

/-- Model of `semver.lte(a, '0.0.85')`-style calls: parse both versions
(the first argument is validated first, as in `compare(a, b)`), throwing
a `TypeError` on an invalid version, and answer whether `a`'s precedence
is at or below `b`'s. -/
def semverLte (a b : String) : Except Thrown Bool :=
  match semverParse a with
  | none => .error (.jsError (invalidVersionMsg a))
  | some x =>
    match semverParse b with
    | none => .error (.jsError (invalidVersionMsg b))
    | some y =>
      .ok (match semverCompare x y with
        | .gt => false
        | _ => true)

instance {ε α : Type} [DecidableEq ε] [DecidableEq α] : DecidableEq (Except ε α) := fun a b =>
  match a, b with
  | .ok x, .ok y => decidable_of_iff (x = y) (by simp)
  | .ok _, .error _ => isFalse (by simp)
  | .error _, .ok _ => isFalse (by simp)
  | .error e, .error f => decidable_of_iff (e = f) (by simp)

/-! ## The run environment and its observable effects -/

/-- An observable side effect of the run: an external command execution
(`exec.exec cmd args {cwd}`), a file copy (`io.cp src dst {force}`),
setting the `success` output (`core.setOutput('success', true)`), or
recording a failure message (`core.setFailed(msg)`). -/
inductive Effect where
  | execCmd (cmd : String) (args : List String) (cwd : Option String)
  | copyFile (src dst : String) (force : Bool)
  | setOutputSuccess
  | setFailedMsg (msg : String)
  deriving DecidableEq, Repr

/-- The action inputs, as raw values before `core.getInput`'s trimming. -/
structure Inputs where
  accessToken : String
  deployBranch : String
  buildArgs : String
  scullyArgs : String
  deriving DecidableEq, Repr

/-- The GitHub context values the source reads (`github.context`). -/
structure GhContext where
  ref : String
  sha : String
  actor : String
  repoOwner : String
  repoName : String
  deriving DecidableEq, Repr

/-- One run's environment: inputs, context, the two filesystem probes
(`ioUtil.exists './yarn.lock'`, `ioUtil.exists './CNAME'`), the outcome of
reading-and-parsing each lock file, and oracles giving, for the `i`-th
`exec.exec` call (resp. the `io.cp` call), the value it throws, if any. -/
structure Env where
  inputs : Inputs
  ctx : GhContext
  yarnLockExists : Bool
  cnameExists : Bool
  yarnLockParse : Except Thrown (List (String × String))
  packageLockParse : Except Thrown (List (String × String))
  execThrows : Nat → Option Thrown
  cpThrows : Option Thrown

/-- The default deploy branch (`DEFAULT_DEPLOY_BRANCH` in the source). -/
def DEFAULT_DEPLOY_BRANCH : String := "main"

/-- The message passed to `core.setFailed` when no access token is given. -/
def noTokenMsg : String :=
  "No personal access token found. Please provide one by setting the `access-token` input for this action."

/-- The generator package name the source looks up. -/
def scullyPackageName : String := "@scullyio/scully"

/-- Message of the `TypeError` raised when the lock-file lookup comes back
`undefined` and the source reads `.version` off it. -/
def typeErrorUndefinedVersion : String :=
  "Cannot read properties of undefined (reading 'version')"

/-- The deploy branch after defaulting: `core.getInput('deploy-branch')`
(trimmed), replaced by `'main'` when falsy (empty). -/
def effectiveDeployBranch (env : Env) : String :=
  let d := jsTrim env.inputs.deployBranch
  if d = "" then DEFAULT_DEPLOY_BRANCH else d

/-- `const pkgManager = (await ioUtil.exists('./yarn.lock')) ? 'yarn' : 'npm'`. -/
def pkgManagerOf (env : Env) : String :=
  if env.yarnLockExists then "yarn" else "npm"

/-- `const installCmd = pkgManager === 'yarn' ? 'install --frozen-lockfile' : 'ci'`. -/
def installCmdOf (env : Env) : String :=
  if pkgManagerOf env = "yarn" then "install --frozen-lockfile" else "ci"

/-- Build-args normalization (source lines 37–41): trim, then prepend
`"-- "` when the string is non-empty and `indexOf('-- ') !== 0`. -/
def normalizeBuildArgs (s : String) : String :=
  if s ≠ "" ∧ ¬ jsStartsWith "-- " s then "-- " ++ s else s

/-- Scully-args normalization (source lines 43–48): trim, then when
`indexOf('-- ') === 0` drop the three-character `"-- "` via `slice(3)`. -/
def normalizeScullyArgs (s : String) : String :=
  if jsStartsWith "-- " s then jsSlice3 s else s

/-- The test applied to each `yarn.lock` entry key:
`/@scullyio\/scully/.test(key)` — an unanchored substring match. -/
def scullyKeyTest (k : String) : Bool :=
  hasSubstr scullyPackageName.data k.data

/-- Scully version resolution (source lines 55–72).  Yarn path: read and
parse `yarn.lock`, keep the keys matching the regex, and read `.version`
off the entry of the first such key (a `TypeError` when there is none).
Npm path: read and parse `package-lock.json` and read
`.dependencies['@scullyio/scully'].version` (a `TypeError` when the key is
absent).  Read/parse failures propagate as thrown values. -/
def resolveScullyVersion (env : Env) : Except Thrown String :=
  if pkgManagerOf env = "yarn" then
    match env.yarnLockParse with
    | .error t => .error t
    | .ok obj =>
      match obj.find? (fun p => scullyKeyTest p.1) with
      | none => .error (.jsError typeErrorUndefinedVersion)
      | some p => .ok p.2
  else
    match env.packageLockParse with
    | .error t => .error t
    | .ok deps =>
      match deps.lookup scullyPackageName with
      | none => .error (.jsError typeErrorUndefinedVersion)
      | some v => .ok v

/-- One `exec.exec` call: the command effect is recorded (the process is
spawned), then the call either returns or throws, per the oracle for the
running count of `exec.exec` calls. -/
def execStep (env : Env) (st : Nat × List Effect) (cmd : String) (args : List String)
    (cwd : Option String) : Except (Thrown × List Effect) (Nat × List Effect) :=
  let tr := st.2 ++ [Effect.execCmd cmd args cwd]
  match env.execThrows st.1 with
  | none => .ok (st.1 + 1, tr)
  | some t => .error (t, tr)

/-- The `io.cp('./CNAME', './dist/static/CNAME', { force: true })` call. -/
def cpStep (env : Env) (st : Nat × List Effect) :
    Except (Thrown × List Effect) (Nat × List Effect) :=
  let tr := st.2 ++ [Effect.copyFile "./CNAME" "./dist/static/CNAME" true]
  match env.cpThrows with
  | none => .ok (st.1, tr)
  | some t => .error (t, tr)

/-- The body of `run`'s `try` block: either a completed effect trace, or a
thrown value together with the effects performed before the throw. -/
def runBody (env : Env) : Except (Thrown × List Effect) (List Effect) :=
  let accessToken := jsTrim env.inputs.accessToken
  if accessToken = "" then
    .ok [Effect.setFailedMsg noTokenMsg]
  else
    let deployBranch := effectiveDeployBranch env
    if env.ctx.ref = "refs/heads/" ++ deployBranch then
      .ok []
    else
      let pkgManager := pkgManagerOf env
      match execStep env (0, []) (pkgManager ++ " " ++ installCmdOf env) [] none with
      | .error e => .error e
      | .ok st1 =>
        let buildArgs := normalizeBuildArgs (jsTrim (jsTrim env.inputs.buildArgs))
        let scullyArgs := normalizeScullyArgs (jsTrim (jsTrim env.inputs.scullyArgs))
        match execStep env st1 (pkgManager ++ " run build " ++ buildArgs) [] none with
        | .error e => .error e
        | .ok st2 =>
          match resolveScullyVersion env with
          | .error t => .error (t, st2.2)
          | .ok scullyVersion =>
            match semverLte scullyVersion "0.0.85" with
            | .error t => .error (t, st2.2)
            | .ok isLte =>
              let scullyArgs2 := if isLte then "--nw " ++ scullyArgs else scullyArgs
              match execStep env st2 (pkgManager ++ " run scully -- " ++ scullyArgs2) [] none with
              | .error e => .error e
              | .ok st3 =>
                match (if env.cnameExists then cpStep env st3 else .ok st3) with
                | .error e => .error e
                | .ok st4 =>
                  let repo := env.ctx.repoOwner ++ "/" ++ env.ctx.repoName
                  let repoURL := "https://" ++ accessToken ++ "@github.com/" ++ repo ++ ".git"
                  match execStep env st4 "git init" [] (some "./dist/static") with
                  | .error e => .error e
                  | .ok st5 =>
                    match execStep env st5 "git config user.name" [env.ctx.actor]
                        (some "./dist/static") with
                    | .error e => .error e
                    | .ok st6 =>
                      match execStep env st6 "git config user.email"
                          [env.ctx.actor ++ "@users.noreply.github.com"] (some "./dist/static") with
                      | .error e => .error e
                      | .ok st7 =>
                        match execStep env st7 "git add" ["."] (some "./dist/static") with
                        | .error e => .error e
                        | .ok st8 =>
                          match execStep env st8 "git commit"
                              ["-m", "deployed via Scully Publish Action 🎩 for " ++ env.ctx.sha]
                              (some "./dist/static") with
                          | .error e => .error e
                          | .ok st9 =>
                            match execStep env st9 "git push"
                                ["-f", repoURL, "main:" ++ deployBranch]
                                (some "./dist/static") with
                            | .error e => .error e
                            | .ok st10 =>
                              .ok (st10.2 ++ [Effect.setOutputSuccess])

/-- The whole of `run`: the `try` body followed by
`catch (error) { if (error instanceof Error) core.setFailed(error.message) }`. -/
def run (env : Env) : List Effect :=
  match runBody env with
  | .ok tr => tr
  | .error (.jsError msg, tr) => tr ++ [Effect.setFailedMsg msg]
  | .error (.nonError, tr) => tr

/-- A trace that records neither a failure message nor the success
output. -/
def silentTrace (tr : List Effect) : Prop :=
  (∀ m, Effect.setFailedMsg m ∉ tr) ∧ Effect.setOutputSuccess ∉ tr

/-! ## Concrete environments used as witnesses and counterexamples -/

/-- Inputs of the reference scenario: a token, everything else left empty. -/
def baseInputs : Inputs :=
  { accessToken := "tok", deployBranch := "", buildArgs := "", scullyArgs := "" }

/-- Context of the reference scenario: triggered from a feature branch. -/
def baseCtx : GhContext :=
  { ref := "refs/heads/feature", sha := "abc123", actor := "octo",
    repoOwner := "jaausi", repoName := "scully-site" }

/-- Reference npm scenario: no `yarn.lock`, no `CNAME`, a
`package-lock.json` pinning the generator at `0.0.80`, and every external
call succeeding. -/
def baseEnv : Env :=
  { inputs := baseInputs, ctx := baseCtx,
    yarnLockExists := false, cnameExists := false,
    yarnLockParse := .error .nonError,
    packageLockParse := .ok [("@scullyio/scully", "0.0.80")],
    execThrows := fun _ => none, cpThrows := none }

/-- Reference scenario, but triggered by a push to the deploy branch. -/
def envDeployRef : Env :=
  { baseEnv with ctx := { baseCtx with ref := "refs/heads/main" } }

/-- Reference scenario with a whitespace-only access token. -/
def envBlankToken : Env :=
  { baseEnv with inputs := { baseInputs with accessToken := "   " } }

/-- Yarn scenario: a `yarn.lock` pinning the generator at `0.0.85`, plus a
`CNAME` file. -/
def envYarn : Env :=
  { baseEnv with
    yarnLockExists := true, cnameExists := true,
    yarnLockParse := .ok [("@scullyio/scully@^0.0.85", "0.0.85")],
    packageLockParse := .error .nonError }

/-- Yarn scenario whose lock file has a `@scullyio/scully-plugin-md` entry
but no `@scullyio/scully` entry itself. -/
def envPluginOnly : Env :=
  { baseEnv with
    yarnLockExists := true,
    yarnLockParse := .ok [("@scullyio/scully-plugin-md@^1.0.0", "1.0.0")],
    packageLockParse := .error .nonError }

/-- Npm scenario whose `package-lock.json` has no `@scullyio/scully`
entry. -/
def envMissingDep : Env :=
  { baseEnv with packageLockParse := .ok [("left-pad", "1.0.0")] }

/-- Reference scenario in which the very first external command throws a
non-`Error` value. -/
def envNonErrorThrow : Env :=
  { baseEnv with execThrows := fun i => if i = 0 then some .nonError else none }


/-! ## Helper lemmas -/

/-- The run's full effect trace on a fault-free environment that gets past
the two guards. -/
theorem run_happy (env : Env) (v : String) (b : Bool)
    (htok : jsTrim env.inputs.accessToken ≠ "")
    (href : env.ctx.ref ≠ "refs/heads/" ++ effectiveDeployBranch env)
    (hex : ∀ i, env.execThrows i = none)
    (hcp : env.cpThrows = none)
    (hres : resolveScullyVersion env = .ok v)
    (hsem : semverLte v "0.0.85" = .ok b) :
    run env =
      [Effect.execCmd (pkgManagerOf env ++ " " ++ installCmdOf env) [] none,
       Effect.execCmd (pkgManagerOf env ++ " run build " ++
         normalizeBuildArgs (jsTrim (jsTrim env.inputs.buildArgs))) [] none,
       Effect.execCmd (pkgManagerOf env ++ " run scully -- " ++
         (if b then "--nw " ++ normalizeScullyArgs (jsTrim (jsTrim env.inputs.scullyArgs))
          else normalizeScullyArgs (jsTrim (jsTrim env.inputs.scullyArgs)))) [] none] ++
      (if env.cnameExists then [Effect.copyFile "./CNAME" "./dist/static/CNAME" true] else []) ++
      [Effect.execCmd "git init" [] (some "./dist/static"),
       Effect.execCmd "git config user.name" [env.ctx.actor] (some "./dist/static"),
       Effect.execCmd "git config user.email" [env.ctx.actor ++ "@users.noreply.github.com"]
         (some "./dist/static"),
       Effect.execCmd "git add" ["."] (some "./dist/static"),
       Effect.execCmd "git commit"
         ["-m", "deployed via Scully Publish Action 🎩 for " ++ env.ctx.sha]
         (some "./dist/static"),
       Effect.execCmd "git push"
         ["-f", "https://" ++ jsTrim env.inputs.accessToken ++ "@github.com/" ++
           env.ctx.repoOwner ++ "/" ++ env.ctx.repoName ++ ".git",
          "main:" ++ effectiveDeployBranch env]
         (some "./dist/static"),
       Effect.setOutputSuccess] := by
  cases hcn : env.cnameExists <;>
    simp [run, runBody, execStep, cpStep, htok, href, hex, hcp, hres, hsem, hcn, String.append_assoc]


theorem silentTrace_nil : silentTrace [] := by simp [silentTrace]

theorem silentTrace_append_exec {tr : List Effect} (h : silentTrace tr)
    (c : String) (a : List String) (w : Option String) :
    silentTrace (tr ++ [Effect.execCmd c a w]) := by
  obtain ⟨h1, h2⟩ := h
  exact ⟨fun m => by simp [h1 m], by simp [h2]⟩

theorem silentTrace_append_copy {tr : List Effect} (h : silentTrace tr)
    (s d : String) (f : Bool) :
    silentTrace (tr ++ [Effect.copyFile s d f]) := by
  obtain ⟨h1, h2⟩ := h
  exact ⟨fun m => by simp [h1 m], by simp [h2]⟩

theorem execStep_ok_silent {env : Env} {st st' : Nat × List Effect} {c : String}
    {a : List String} {w : Option String} (h : execStep env st c a w = .ok st')
    (hs : silentTrace st.2) : silentTrace st'.2 := by
  revert h; unfold execStep
  cases env.execThrows st.1 <;> intro h <;> simp at h
  subst h
  exact silentTrace_append_exec hs c a w

theorem execStep_error_silent {env : Env} {st : Nat × List Effect} {c : String}
    {a : List String} {w : Option String} {t : Thrown} {tr : List Effect}
    (h : execStep env st c a w = .error (t, tr))
    (hs : silentTrace st.2) : silentTrace tr := by
  revert h; unfold execStep
  cases env.execThrows st.1 <;> intro h <;> simp at h
  rw [← h.2]
  exact silentTrace_append_exec hs c a w

theorem cpStep_ok_silent {env : Env} {st st' : Nat × List Effect}
    (h : cpStep env st = .ok st') (hs : silentTrace st.2) : silentTrace st'.2 := by
  revert h; unfold cpStep
  cases env.cpThrows <;> intro h <;> simp at h
  subst h
  exact silentTrace_append_copy hs _ _ _

theorem cpStep_error_silent {env : Env} {st : Nat × List Effect} {t : Thrown}
    {tr : List Effect} (h : cpStep env st = .error (t, tr))
    (hs : silentTrace st.2) : silentTrace tr := by
  revert h; unfold cpStep
  cases env.cpThrows <;> intro h <;> simp at h
  rw [← h.2]
  exact silentTrace_append_copy hs _ _ _

/-- Every trace that escapes `runBody` with a thrown value consists only
of command/copy effects: it mentions no failure message and no success
output. -/
theorem runBody_error_silent (env : Env) (t : Thrown) (tr : List Effect)
    (h : runBody env = .error (t, tr)) : silentTrace tr := by
  unfold runBody at h
  by_cases h1 : jsTrim env.inputs.accessToken = ""
  · simp [h1] at h
  · simp only [if_neg h1] at h
    by_cases h2 : env.ctx.ref = "refs/heads/" ++ effectiveDeployBranch env
    · simp [if_pos h2] at h
    · simp only [if_neg h2] at h
      cases hE0 : execStep env (0, []) (pkgManagerOf env ++ " " ++ installCmdOf env) [] none with
      | error e =>
        obtain ⟨t0, tr0⟩ := e
        simp only [hE0, Except.error.injEq, Prod.mk.injEq] at h
        obtain ⟨-, rfl⟩ := h
        exact execStep_error_silent hE0 silentTrace_nil
      | ok st1 =>
        simp only [hE0] at h
        have hs1 : silentTrace st1.2 := execStep_ok_silent hE0 silentTrace_nil
        cases hE1 : execStep env st1 (pkgManagerOf env ++ " run build " ++
            normalizeBuildArgs (jsTrim (jsTrim env.inputs.buildArgs))) [] none with
        | error e =>
          obtain ⟨t0, tr0⟩ := e
          simp only [hE1, Except.error.injEq, Prod.mk.injEq] at h
          obtain ⟨-, rfl⟩ := h
          exact execStep_error_silent hE1 hs1
        | ok st2 =>
          simp only [hE1] at h
          have hs2 : silentTrace st2.2 := execStep_ok_silent hE1 hs1
          cases hR : resolveScullyVersion env with
          | error t0 =>
            simp only [hR, Except.error.injEq, Prod.mk.injEq] at h
            obtain ⟨-, rfl⟩ := h
            exact hs2
          | ok ver =>
            simp only [hR] at h
            cases hS : semverLte ver "0.0.85" with
            | error t0 =>
              simp only [hS, Except.error.injEq, Prod.mk.injEq] at h
              obtain ⟨-, rfl⟩ := h
              exact hs2
            | ok isLte =>
              simp only [hS] at h
              cases hE2 : execStep env st2 (pkgManagerOf env ++ " run scully -- " ++
                  (if isLte then "--nw " ++ normalizeScullyArgs (jsTrim (jsTrim env.inputs.scullyArgs))
                   else normalizeScullyArgs (jsTrim (jsTrim env.inputs.scullyArgs)))) [] none with
              | error e =>
                obtain ⟨t0, tr0⟩ := e
                simp only [hE2, Except.error.injEq, Prod.mk.injEq] at h
                obtain ⟨-, rfl⟩ := h
                exact execStep_error_silent hE2 hs2
              | ok st3 =>
                simp only [hE2] at h
                have hs3 : silentTrace st3.2 := execStep_ok_silent hE2 hs2
                cases hC : env.cnameExists with
                | true =>
                  simp only [hC, if_true] at h
                  cases hCp : cpStep env st3 with
                  | error e =>
                    obtain ⟨t0, tr0⟩ := e
                    simp only [hCp, Except.error.injEq, Prod.mk.injEq] at h
                    obtain ⟨-, rfl⟩ := h
                    exact cpStep_error_silent hCp hs3
                  | ok st4 =>
                    simp only [hCp] at h
                    have hs4 : silentTrace st4.2 := cpStep_ok_silent hCp hs3
                    cases hE3 : execStep env st4 "git init" [] (some "./dist/static") with
                    | error e =>
                      obtain ⟨t0, tr0⟩ := e
                      simp only [hE3, Except.error.injEq, Prod.mk.injEq] at h
                      obtain ⟨-, rfl⟩ := h
                      exact execStep_error_silent hE3 hs4
                    | ok st5 =>
                      simp only [hE3] at h
                      have hs5 : silentTrace st5.2 := execStep_ok_silent hE3 hs4
                      cases hE4 : execStep env st5 "git config user.name" [env.ctx.actor]
                          (some "./dist/static") with
                      | error e =>
                        obtain ⟨t0, tr0⟩ := e
                        simp only [hE4, Except.error.injEq, Prod.mk.injEq] at h
                        obtain ⟨-, rfl⟩ := h
                        exact execStep_error_silent hE4 hs5
                      | ok st6 =>
                        simp only [hE4] at h
                        have hs6 : silentTrace st6.2 := execStep_ok_silent hE4 hs5
                        cases hE5 : execStep env st6 "git config user.email"
                            [env.ctx.actor ++ "@users.noreply.github.com"] (some "./dist/static") with
                        | error e =>
                          obtain ⟨t0, tr0⟩ := e
                          simp only [hE5, Except.error.injEq, Prod.mk.injEq] at h
                          obtain ⟨-, rfl⟩ := h
                          exact execStep_error_silent hE5 hs6
                        | ok st7 =>
                          simp only [hE5] at h
                          have hs7 : silentTrace st7.2 := execStep_ok_silent hE5 hs6
                          cases hE6 : execStep env st7 "git add" ["."] (some "./dist/static") with
                          | error e =>
                            obtain ⟨t0, tr0⟩ := e
                            simp only [hE6, Except.error.injEq, Prod.mk.injEq] at h
                            obtain ⟨-, rfl⟩ := h
                            exact execStep_error_silent hE6 hs7
                          | ok st8 =>
                            simp only [hE6] at h
                            have hs8 : silentTrace st8.2 := execStep_ok_silent hE6 hs7
                            cases hE7 : execStep env st8 "git commit"
                                ["-m", "deployed via Scully Publish Action 🎩 for " ++ env.ctx.sha]
                                (some "./dist/static") with
                            | error e =>
                              obtain ⟨t0, tr0⟩ := e
                              simp only [hE7, Except.error.injEq, Prod.mk.injEq] at h
                              obtain ⟨-, rfl⟩ := h
                              exact execStep_error_silent hE7 hs8
                            | ok st9 =>
                              simp only [hE7] at h
                              have hs9 : silentTrace st9.2 := execStep_ok_silent hE7 hs8
                              cases hE8 : execStep env st9 "git push"
                                  ["-f", "https://" ++ jsTrim env.inputs.accessToken ++ "@github.com/" ++
                                    (env.ctx.repoOwner ++ "/" ++ env.ctx.repoName) ++ ".git",
                                   "main:" ++ effectiveDeployBranch env]
                                  (some "./dist/static") with
                              | error e =>
                                obtain ⟨t0, tr0⟩ := e
                                simp only [hE8, Except.error.injEq, Prod.mk.injEq] at h
                                obtain ⟨-, rfl⟩ := h
                                exact execStep_error_silent hE8 hs9
                              | ok st10 =>
                                simp only [hE8] at h
                                exact absurd h (by simp)
                | false =>
                  simp only [hC, Bool.false_eq_true, if_false] at h
                  cases hE3 : execStep env st3 "git init" [] (some "./dist/static") with
                  | error e =>
                    obtain ⟨t0, tr0⟩ := e
                    simp only [hE3, Except.error.injEq, Prod.mk.injEq] at h
                    obtain ⟨-, rfl⟩ := h
                    exact execStep_error_silent hE3 hs3
                  | ok st5 =>
                    simp only [hE3] at h
                    have hs5 : silentTrace st5.2 := execStep_ok_silent hE3 hs3
                    cases hE4 : execStep env st5 "git config user.name" [env.ctx.actor]
                        (some "./dist/static") with
                    | error e =>
                      obtain ⟨t0, tr0⟩ := e
                      simp only [hE4, Except.error.injEq, Prod.mk.injEq] at h
                      obtain ⟨-, rfl⟩ := h
                      exact execStep_error_silent hE4 hs5
                    | ok st6 =>
                      simp only [hE4] at h
                      have hs6 : silentTrace st6.2 := execStep_ok_silent hE4 hs5
                      cases hE5 : execStep env st6 "git config user.email"
                          [env.ctx.actor ++ "@users.noreply.github.com"] (some "./dist/static") with
                      | error e =>
                        obtain ⟨t0, tr0⟩ := e
                        simp only [hE5, Except.error.injEq, Prod.mk.injEq] at h
                        obtain ⟨-, rfl⟩ := h
                        exact execStep_error_silent hE5 hs6
                      | ok st7 =>
                        simp only [hE5] at h
                        have hs7 : silentTrace st7.2 := execStep_ok_silent hE5 hs6
                        cases hE6 : execStep env st7 "git add" ["."] (some "./dist/static") with
                        | error e =>
                          obtain ⟨t0, tr0⟩ := e
                          simp only [hE6, Except.error.injEq, Prod.mk.injEq] at h
                          obtain ⟨-, rfl⟩ := h
                          exact execStep_error_silent hE6 hs7
                        | ok st8 =>
                          simp only [hE6] at h
                          have hs8 : silentTrace st8.2 := execStep_ok_silent hE6 hs7
                          cases hE7 : execStep env st8 "git commit"
                              ["-m", "deployed via Scully Publish Action 🎩 for " ++ env.ctx.sha]
                              (some "./dist/static") with
                          | error e =>
                            obtain ⟨t0, tr0⟩ := e
                            simp only [hE7, Except.error.injEq, Prod.mk.injEq] at h
                            obtain ⟨-, rfl⟩ := h
                            exact execStep_error_silent hE7 hs8
                          | ok st9 =>
                            simp only [hE7] at h
                            have hs9 : silentTrace st9.2 := execStep_ok_silent hE7 hs8
                            cases hE8 : execStep env st9 "git push"
                                ["-f", "https://" ++ jsTrim env.inputs.accessToken ++ "@github.com/" ++
                                  (env.ctx.repoOwner ++ "/" ++ env.ctx.repoName) ++ ".git",
                                 "main:" ++ effectiveDeployBranch env]
                                (some "./dist/static") with
                            | error e =>
                              obtain ⟨t0, tr0⟩ := e
                              simp only [hE8, Except.error.injEq, Prod.mk.injEq] at h
                              obtain ⟨-, rfl⟩ := h
                              exact execStep_error_silent hE8 hs9
                            | ok st10 =>
                              simp only [hE8] at h
                              exact absurd h (by simp)



/-- A list is a prefix of itself followed by anything. -/
theorem isPrefixOf_self_append (l r : List Char) : l.isPrefixOf (l ++ r) = true := by
  induction l with
  | nil => simp [List.isPrefixOf]
  | cons c cs ih => simp [List.isPrefixOf, ih]

/-- C1 counterexample: on a run triggered by `refs/heads/<deployBranch>`
(with `deployBranch` defaulted to `main`), the code executes no command but
also does NOT set the boolean `success` output — it merely returns — so the
claim's "the run reports success (the boolean success output is set)" part
is false on this input. -/
theorem C1_counterexample :
    envDeployRef.ctx.ref = "refs/heads/" ++ effectiveDeployBranch envDeployRef ∧
    run envDeployRef = [] ∧
    Effect.setOutputSuccess ∉ run envDeployRef := by decide

/-- C1 (amended): for every run whose triggering ref is exactly
`refs/heads/<deployBranch>` (deployBranch defaulting to `main`), provided a
non-empty access token was given, the run performs no effect at all: no
install/build/generate/push command, no failure message — but also no
success output. -/
theorem C1_early_exit (env : Env)
    (htok : jsTrim env.inputs.accessToken ≠ "")
    (href : env.ctx.ref = "refs/heads/" ++ effectiveDeployBranch env) :
    run env = [] := by
  simp [run, runBody, htok, href]

/-- C1 witness: the early exit at the concrete deploy-branch trigger. -/
theorem C1_early_exit_witness : run envDeployRef = [] :=
  C1_early_exit envDeployRef (by decide) (by decide)

/-- C2 counterexample: the input `"--foo"` does not start with `"-- "`
(double dash followed by a space), so the code prepends `"-- "` to it:
it is not mapped to itself, contrary to the claim. -/
theorem C2_counterexample :
    normalizeBuildArgs "--foo" = "-- --foo" ∧ normalizeBuildArgs "--foo" ≠ "--foo" := by
  decide

/-- C2 (amended): build-argument normalization maps `""` to `""`,
`"foo"` to `"-- foo"`, and `"--foo"` to `"-- --foo"`; in general a
non-empty string is prefixed with `"-- "` exactly when it does not already
start with the double-dash separator followed by a space, and is left
unchanged when it does. -/
theorem C2_buildArgs_normalization :
    normalizeBuildArgs "" = "" ∧
    normalizeBuildArgs "foo" = "-- foo" ∧
    normalizeBuildArgs "--foo" = "-- --foo" ∧
    (∀ s : String, s ≠ "" → jsStartsWith "-- " s = false → normalizeBuildArgs s = "-- " ++ s) ∧
    (∀ s : String, jsStartsWith "-- " s = true → normalizeBuildArgs s = s) := by
  refine ⟨by decide, by decide, by decide, ?_, ?_⟩
  · intro s h1 h2
    simp [normalizeBuildArgs, h1, h2]
  · intro s h
    simp [normalizeBuildArgs, h]

/-- C2 witness: both branches of the normalization at concrete inputs. -/
theorem C2_buildArgs_normalization_witness :
    normalizeBuildArgs "x y" = "-- x y" ∧ normalizeBuildArgs "-- z" = "-- z" :=
  ⟨C2_buildArgs_normalization.2.2.2.1 "x y" (by decide) (by decide),
   C2_buildArgs_normalization.2.2.2.2 "-- z" (by decide)⟩

/-- C4: for every environment whose access token trims to the empty string
(empty or whitespace-only), the run's only effect is the configuration
failure message: no command executes and nothing happens before the
check. -/
theorem C4_empty_token (env : Env) (h : jsTrim env.inputs.accessToken = "") :
    run env = [Effect.setFailedMsg noTokenMsg] := by
  simp [run, runBody, h]

/-- C4 witness: a whitespace-only token yields exactly the configuration
failure. -/
theorem C4_empty_token_witness : run envBlankToken = [Effect.setFailedMsg noTokenMsg] :=
  C4_empty_token envBlankToken (by decide)

/-- C10: whenever the try-block escapes with a thrown value that is not an
`Error` instance, the catch handler reports nothing: the run ends with no
failure message recorded and without the success output set, so success
and failure are not exhaustive outcomes. -/
theorem C10_nonError_throw (env : Env) (tr : List Effect)
    (h : runBody env = .error (.nonError, tr)) :
    (∀ m, Effect.setFailedMsg m ∉ run env) ∧ Effect.setOutputSuccess ∉ run env := by
  have hs := runBody_error_silent env .nonError tr h
  have hrun : run env = tr := by simp [run, h]
  rw [hrun]
  exact hs

/-- C10 witness: the install command throwing a non-`Error` value leaves
neither a failure message nor the success output. -/
theorem C10_nonError_throw_witness :
    Effect.setFailedMsg noTokenMsg ∉ run envNonErrorThrow ∧
    Effect.setOutputSuccess ∉ run envNonErrorThrow :=
  ⟨(C10_nonError_throw envNonErrorThrow [Effect.execCmd "npm ci" [] none] (by decide)).1 noTokenMsg,
   (C10_nonError_throw envNonErrorThrow [Effect.execCmd "npm ci" [] none] (by decide)).2⟩


/-- C3 counterexample: a yarn lock file whose only entry is the distinct
package `@scullyio/scully-plugin-md` (its key does not begin with
`@scullyio/scully@`, so its package name is not exactly the generator's)
still resolves — the regex is an unanchored substring test — and the run
completes successfully instead of failing fatally. -/
theorem C3_counterexample :
    resolveScullyVersion envPluginOnly = Except.ok "1.0.0" ∧
    "@scullyio/scully@".data.isPrefixOf "@scullyio/scully-plugin-md@^1.0.0".data = false ∧
    Effect.setOutputSuccess ∈ run envPluginOnly := by decide

/-- C3 (amended): the npm path looks the generator package name up exactly,
while the yarn path takes the first lock entry whose key merely CONTAINS
`@scullyio/scully` as a substring; in either path a missing entry raises the
generic `TypeError` of reading `.version` off `undefined`, a read/parse
failure propagates unchanged, and any such error fails the run with the
error's own (not specially-labelled) message right after the build step. -/
theorem C3_version_resolution :
    (∀ env m, jsTrim env.inputs.accessToken ≠ "" →
      env.ctx.ref ≠ "refs/heads/" ++ effectiveDeployBranch env →
      env.execThrows 0 = none → env.execThrows 1 = none →
      resolveScullyVersion env = .error (.jsError m) →
      run env =
        [Effect.execCmd (pkgManagerOf env ++ " " ++ installCmdOf env) [] none,
         Effect.execCmd (pkgManagerOf env ++ " run build " ++
           normalizeBuildArgs (jsTrim (jsTrim env.inputs.buildArgs))) [] none,
         Effect.setFailedMsg m]) ∧
    (∀ env deps v, env.yarnLockExists = false → env.packageLockParse = .ok deps →
      deps.lookup scullyPackageName = some v → resolveScullyVersion env = .ok v) ∧
    (∀ env deps, env.yarnLockExists = false → env.packageLockParse = .ok deps →
      deps.lookup scullyPackageName = none →
      resolveScullyVersion env = .error (.jsError typeErrorUndefinedVersion)) ∧
    (∀ env obj k v, env.yarnLockExists = true → env.yarnLockParse = .ok obj →
      obj.find? (fun p => scullyKeyTest p.1) = some (k, v) →
      resolveScullyVersion env = .ok v) ∧
    (∀ env obj, env.yarnLockExists = true → env.yarnLockParse = .ok obj →
      (∀ p ∈ obj, scullyKeyTest p.1 = false) →
      resolveScullyVersion env = .error (.jsError typeErrorUndefinedVersion)) ∧
    (∀ env t, env.yarnLockExists = true → env.yarnLockParse = .error t →
      resolveScullyVersion env = .error t) ∧
    (∀ env t, env.yarnLockExists = false → env.packageLockParse = .error t →
      resolveScullyVersion env = .error t) := by
  refine ⟨?_, ?_, ?_, ?_, ?_, ?_, ?_⟩
  · intro env m htok href h0 h1 hres
    simp [run, runBody, execStep, htok, href, h0, h1, hres]
  · intro env deps v hyl hpl hlk
    simp [resolveScullyVersion, pkgManagerOf, hyl, hpl, hlk]
  · intro env deps hyl hpl hlk
    simp [resolveScullyVersion, pkgManagerOf, hyl, hpl, hlk]
  · intro env obj k v hyl hpl hfind
    simp [resolveScullyVersion, pkgManagerOf, hyl, hpl, hfind]
  · intro env obj hyl hpl hnone
    have hfind : obj.find? (fun p => scullyKeyTest p.1) = none :=
      List.find?_eq_none.mpr fun p hp => by simp [hnone p hp]
    simp [resolveScullyVersion, pkgManagerOf, hyl, hpl, hfind]
  · intro env t hyl hpl
    simp [resolveScullyVersion, pkgManagerOf, hyl, hpl]
  · intro env t hyl hpl
    simp [resolveScullyVersion, pkgManagerOf, hyl, hpl]

/-- C3 witness: a `package-lock.json` without the generator entry makes the
run fail with the generic `TypeError` message after install and build. -/
theorem C3_version_resolution_witness :
    run envMissingDep =
      [Effect.execCmd "npm ci" [] none,
       Effect.execCmd "npm run build " [] none,
       Effect.setFailedMsg typeErrorUndefinedVersion] := by
  rw [C3_version_resolution.1 envMissingDep typeErrorUndefinedVersion
    (by decide) (by decide) rfl rfl (by decide)]
  decide

/-- C5: the legacy `--nw` flag decision uses semver less-or-equal against
`0.0.85`: version `0.0.85` is at the threshold (flag added), `0.0.86` is
above it (no flag), and the prerelease `0.0.85-beta` is strictly below
`0.0.85` (flag added); on any fault-free run the generator command carries
the `--nw ` prefix exactly when the resolved version compares at or below
the threshold. -/
theorem C5_version_threshold :
    semverLte "0.0.85" "0.0.85" = .ok true ∧
    semverLte "0.0.86" "0.0.85" = .ok false ∧
    semverLte "0.0.85-beta" "0.0.85" = .ok true ∧
    semverLte "0.0.85" "0.0.85-beta" = .ok false ∧
    (∀ env v b, jsTrim env.inputs.accessToken ≠ "" →
      env.ctx.ref ≠ "refs/heads/" ++ effectiveDeployBranch env →
      (∀ i, env.execThrows i = none) → env.cpThrows = none →
      resolveScullyVersion env = .ok v → semverLte v "0.0.85" = .ok b →
      Effect.execCmd (pkgManagerOf env ++ " run scully -- " ++
        (if b then "--nw " ++ normalizeScullyArgs (jsTrim (jsTrim env.inputs.scullyArgs))
         else normalizeScullyArgs (jsTrim (jsTrim env.inputs.scullyArgs)))) [] none
        ∈ run env) := by
  refine ⟨by decide, by decide, by decide, by decide, ?_⟩
  intro env v b htok href hex hcp hres hsem
  rw [run_happy env v b htok href hex hcp hres hsem]
  simp

/-- C5 witness: with resolved version `0.0.80` the generator command of the
reference run carries the `--nw` flag. -/
theorem C5_version_threshold_witness :
    Effect.execCmd (pkgManagerOf baseEnv ++ " run scully -- " ++
      (if true then "--nw " ++ normalizeScullyArgs (jsTrim (jsTrim baseEnv.inputs.scullyArgs))
       else normalizeScullyArgs (jsTrim (jsTrim baseEnv.inputs.scullyArgs)))) [] none
      ∈ run baseEnv :=
  C5_version_threshold.2.2.2.2 baseEnv "0.0.80" true (by decide) (by decide)
    (fun _ => rfl) rfl (by decide) (by decide)

/-- C6: generator-argument normalization strips exactly one leading
`"-- "` when present (`"-- bar"` becomes `"bar"`, and in general
`"-- " ++ t` becomes `t`) and leaves every other string unchanged
(`"bar"` stays `"bar"`). -/
theorem C6_scullyArgs_normalization :
    normalizeScullyArgs "-- bar" = "bar" ∧
    normalizeScullyArgs "bar" = "bar" ∧
    (∀ t : String, normalizeScullyArgs ("-- " ++ t) = t) ∧
    (∀ s : String, jsStartsWith "-- " s = false → normalizeScullyArgs s = s) := by
  refine ⟨by decide, by decide, ?_, ?_⟩
  · intro t
    have hpre : jsStartsWith "-- " ("-- " ++ t) = true := by
      simp [jsStartsWith, String.data_append, isPrefixOf_self_append]
    apply String.ext
    simp [normalizeScullyArgs, hpre, jsSlice3, String.data_append]
  · intro s h
    simp [normalizeScullyArgs, h]

/-- C6 witness: both branches of the normalization at concrete inputs. -/
theorem C6_scullyArgs_normalization_witness :
    normalizeScullyArgs ("-- " ++ "qq") = "qq" ∧ normalizeScullyArgs "zz" = "zz" :=
  ⟨C6_scullyArgs_normalization.2.2.1 "qq",
   C6_scullyArgs_normalization.2.2.2 "zz" (by decide)⟩


/-- C7: the package manager is fixed once by the `./yarn.lock` probe —
`yarn` with `install --frozen-lockfile` when the probe succeeds, `npm` with
`ci` otherwise — and on a fault-free run every package-manager command of
the whole trace (install, build, generate) uses that same choice, which is
never revisited. -/
theorem C7_package_manager_choice (env : Env) (v : String) (b : Bool)
    (htok : jsTrim env.inputs.accessToken ≠ "")
    (href : env.ctx.ref ≠ "refs/heads/" ++ effectiveDeployBranch env)
    (hex : ∀ i, env.execThrows i = none)
    (hcp : env.cpThrows = none)
    (hres : resolveScullyVersion env = .ok v)
    (hsem : semverLte v "0.0.85" = .ok b) :
    (env.yarnLockExists = true →
      pkgManagerOf env = "yarn" ∧ installCmdOf env = "install --frozen-lockfile") ∧
    (env.yarnLockExists = false →
      pkgManagerOf env = "npm" ∧ installCmdOf env = "ci") ∧
    run env =
      [Effect.execCmd (pkgManagerOf env ++ " " ++ installCmdOf env) [] none,
       Effect.execCmd (pkgManagerOf env ++ " run build " ++
         normalizeBuildArgs (jsTrim (jsTrim env.inputs.buildArgs))) [] none,
       Effect.execCmd (pkgManagerOf env ++ " run scully -- " ++
         (if b then "--nw " ++ normalizeScullyArgs (jsTrim (jsTrim env.inputs.scullyArgs))
          else normalizeScullyArgs (jsTrim (jsTrim env.inputs.scullyArgs)))) [] none] ++
      (if env.cnameExists then [Effect.copyFile "./CNAME" "./dist/static/CNAME" true] else []) ++
      [Effect.execCmd "git init" [] (some "./dist/static"),
       Effect.execCmd "git config user.name" [env.ctx.actor] (some "./dist/static"),
       Effect.execCmd "git config user.email" [env.ctx.actor ++ "@users.noreply.github.com"]
         (some "./dist/static"),
       Effect.execCmd "git add" ["."] (some "./dist/static"),
       Effect.execCmd "git commit"
         ["-m", "deployed via Scully Publish Action 🎩 for " ++ env.ctx.sha]
         (some "./dist/static"),
       Effect.execCmd "git push"
         ["-f", "https://" ++ jsTrim env.inputs.accessToken ++ "@github.com/" ++
           env.ctx.repoOwner ++ "/" ++ env.ctx.repoName ++ ".git",
          "main:" ++ effectiveDeployBranch env]
         (some "./dist/static"),
       Effect.setOutputSuccess] := by
  refine ⟨?_, ?_, run_happy env v b htok href hex hcp hres hsem⟩
  · intro hl
    constructor <;> simp only [pkgManagerOf, installCmdOf, hl] <;> decide
  · intro hl
    constructor <;> simp only [pkgManagerOf, installCmdOf, hl] <;> decide

/-- C7 witness: the yarn scenario's full trace, with every package-manager
command using yarn and the frozen-lockfile install mode. -/
theorem C7_package_manager_choice_witness :
    run envYarn =
      [Effect.execCmd "yarn install --frozen-lockfile" [] none,
       Effect.execCmd "yarn run build " [] none,
       Effect.execCmd "yarn run scully -- --nw " [] none,
       Effect.copyFile "./CNAME" "./dist/static/CNAME" true,
       Effect.execCmd "git init" [] (some "./dist/static"),
       Effect.execCmd "git config user.name" ["octo"] (some "./dist/static"),
       Effect.execCmd "git config user.email" ["octo@users.noreply.github.com"]
         (some "./dist/static"),
       Effect.execCmd "git add" ["."] (some "./dist/static"),
       Effect.execCmd "git commit"
         ["-m", "deployed via Scully Publish Action 🎩 for abc123"]
         (some "./dist/static"),
       Effect.execCmd "git push"
         ["-f", "https://tok@github.com/jaausi/scully-site.git", "main:main"]
         (some "./dist/static"),
       Effect.setOutputSuccess] := by
  rw [(C7_package_manager_choice envYarn "0.0.85" true (by decide) (by decide)
    (fun _ => rfl) rfl (by decide) (by decide)).2.2]
  decide

/-- C8: on every fault-free run the push step is exactly a force-push of
`main:<deployBranch>` to the URL `https://<token>@github.com/<owner>/<repo>.git`,
which embeds the access token as credentials. -/
theorem C8_force_push (env : Env) (v : String) (b : Bool)
    (htok : jsTrim env.inputs.accessToken ≠ "")
    (href : env.ctx.ref ≠ "refs/heads/" ++ effectiveDeployBranch env)
    (hex : ∀ i, env.execThrows i = none)
    (hcp : env.cpThrows = none)
    (hres : resolveScullyVersion env = .ok v)
    (hsem : semverLte v "0.0.85" = .ok b) :
    Effect.execCmd "git push"
      ["-f", "https://" ++ jsTrim env.inputs.accessToken ++ "@github.com/" ++
        env.ctx.repoOwner ++ "/" ++ env.ctx.repoName ++ ".git",
       "main:" ++ effectiveDeployBranch env]
      (some "./dist/static") ∈ run env := by
  rw [run_happy env v b htok href hex hcp hres hsem]
  simp

/-- C8 witness: the reference run's push command at concrete values. -/
theorem C8_force_push_witness :
    Effect.execCmd "git push"
      ["-f", "https://" ++ jsTrim baseEnv.inputs.accessToken ++ "@github.com/" ++
        baseEnv.ctx.repoOwner ++ "/" ++ baseEnv.ctx.repoName ++ ".git",
       "main:" ++ effectiveDeployBranch baseEnv]
      (some "./dist/static") ∈ run baseEnv :=
  C8_force_push baseEnv "0.0.80" true (by decide) (by decide) (fun _ => rfl) rfl
    (by decide) (by decide)

/-- C9: on a fault-free run, when the `CNAME` probe succeeds the file is
copied into the output directory with overwrite enabled, and when it fails
the step performs no copy at all and the run still ends with the success
output set. -/
theorem C9_cname_step (env : Env) (v : String) (b : Bool)
    (htok : jsTrim env.inputs.accessToken ≠ "")
    (href : env.ctx.ref ≠ "refs/heads/" ++ effectiveDeployBranch env)
    (hex : ∀ i, env.execThrows i = none)
    (hcp : env.cpThrows = none)
    (hres : resolveScullyVersion env = .ok v)
    (hsem : semverLte v "0.0.85" = .ok b) :
    (env.cnameExists = true →
      Effect.copyFile "./CNAME" "./dist/static/CNAME" true ∈ run env) ∧
    (env.cnameExists = false →
      (∀ s d f, Effect.copyFile s d f ∉ run env) ∧
      Effect.setOutputSuccess ∈ run env) := by
  rw [run_happy env v b htok href hex hcp hres hsem]
  constructor
  · intro hc
    simp [hc]
  · intro hc
    refine ⟨fun s d f => ?_, ?_⟩ <;> simp [hc]

/-- C9 witness: the copy happens in the `CNAME` scenario and is absent —
with the run still succeeding — in the scenario without a `CNAME`. -/
theorem C9_cname_step_witness :
    Effect.copyFile "./CNAME" "./dist/static/CNAME" true ∈ run envYarn ∧
    Effect.copyFile "./CNAME" "./dist/static/CNAME" true ∉ run baseEnv ∧
    Effect.setOutputSuccess ∈ run baseEnv :=
  ⟨(C9_cname_step envYarn "0.0.85" true (by decide) (by decide) (fun _ => rfl) rfl
      (by decide) (by decide)).1 rfl,
   ((C9_cname_step baseEnv "0.0.80" true (by decide) (by decide) (fun _ => rfl) rfl
      (by decide) (by decide)).2 rfl).1 "./CNAME" "./dist/static/CNAME" true,
   ((C9_cname_step baseEnv "0.0.80" true (by decide) (by decide) (fun _ => rfl) rfl
      (by decide) (by decide)).2 rfl).2⟩

end ScullyAction
